import Mathlib

/-!
Verification of the ordered speech-generation pipeline of the ai-podcast
repository (main.go, package podcast types).  The pipeline turns a list of
dialogue messages into an ordered list of audio segment files: a single
background worker synthesizes speech for issued requests, the coordinator
(processSegments) receives completed segments from a result channel, buffers
out-of-order ones, and releases them strictly by ascending index.

The shallow embedding below follows main.go: pure functions are translated
directly; the channel-based concurrency is made explicit by passing the
history of deliveries on the result channel (each with the time the
coordinator's select waited for it) as a list consumed one element per loop
iteration, exactly as the Go loop performs one channel receive per
iteration.  Since the program starts exactly one worker goroutine and both
channels are FIFO, the deliveries of the full program are the worker's
responses to the issued requests, in issue order; `pipelineArrivals` builds
that realizable history, while theorems about `processSegmentsLoop` alone
quantify over arbitrary channel histories.
-/

namespace AiPodcast

/-- Raw audio bytes ([]byte in Go), each entry one byte value. -/
abbrev Bytes := List Nat

/-- podcast.Message: a single utterance in the discussion. -/
structure Message where
  host : String
  content : String
deriving DecidableEq, Repr

/-- podcast.Host: a podcast host (name, gender, character, TTS voice). -/
structure Host where
  name : String
  gender : String
  character : String
  voice : String
deriving DecidableEq, Repr

/-- podcast.HostInfo: gender and voice information for a host. -/
structure HostInfo where
  gender : String
  voice : String
deriving DecidableEq, Repr

/-- podcast.CreateHostMap: folds the host list into a map from host name to
HostInfo; a Go map is modelled as a lookup function, later insertions
shadowing earlier ones. -/
def CreateHostMap (hosts : List Host) : String → Option HostInfo :=
  hosts.foldl
    (fun m h => fun n => if n = h.name then some ⟨h.gender, h.voice⟩ else m n)
    (fun _ => none)

/-- podcast.CreateSpeechRequestParams. -/
structure CreateSpeechRequestParams where
  msg : Message
  index : Nat
  hostMap : String → Option HostInfo
  apiKey : String

/-- podcast.SpeechGenerationRequest: all parameters for one TTS generation.
The Speed field is a float64 in Go; it only ever holds the exact constant
1.0 here, modelled as a rational. -/
structure SpeechGenerationRequest where
  msg : Message
  index : Nat
  gender : String
  voice : String
  speed : ℚ
  apiKey : String
deriving DecidableEq, Repr

/-- createSpeechRequest (main.go:494-510): look the host up in the map;
an unknown host gets the default gender "female" and default voice "nova";
the speed factor is always the constant 1.0. -/
def createSpeechRequest (params : CreateSpeechRequestParams) :
    SpeechGenerationRequest :=
  match params.hostMap params.msg.host with
  | some info =>
      { msg := params.msg, index := params.index, gender := info.gender,
        voice := info.voice, speed := 1, apiKey := params.apiKey }
  | none =>
      { msg := params.msg, index := params.index, gender := "female",
        voice := "nova", speed := 1, apiKey := params.apiKey }

/-- The error value produced by a failed synthesizer call (Go error text). -/
abbrev SynthError := String

/-- podcast.SpeechSegment: result of one synthesis, error nullable. -/
structure SpeechSegment where
  audioData : Bytes
  host : String
  index : Nat
  error : Option SynthError
  msg : Message
deriving DecidableEq, Repr

/-- The Speech Synthesizer collaborator, OpenAIClient.GenerateSpeech(text,
voice).  OpenAIService.GenerateSpeech returns nil audio bytes on every one
of its error paths (openai.go callTTSAPI), so the pair ([]byte, error) is
modelled as error XOR bytes. -/
abbrev Synthesizer := String → String → Except SynthError Bytes

/-- The body of speechGenerationWorker's request case (main.go:342-358):
invoke the synthesizer and wrap the outcome into exactly one SpeechSegment,
keeping the request's index and the message's host; on failure the error
is set and the audio is empty (nil). -/
def workerProcessRequest (synth : Synthesizer)
    (req : SpeechGenerationRequest) : SpeechSegment :=
  match synth req.msg.content req.voice with
  | .ok audioData =>
      { audioData := audioData, host := req.msg.host, index := req.index,
        error := none, msg := req.msg }
  | .error e =>
      { audioData := [], host := req.msg.host, index := req.index,
        error := some e, msg := req.msg }

/-- speechGenerationWorker (main.go:336-361), unrolled over the sequence of
requests it consumes before being stopped: the worker emits one segment per
consumed request and keeps serving subsequent requests after a synthesis
failure (failure is reported in the segment, never by terminating). -/
def speechGenerationWorker (synth : Synthesizer) :
    List SpeechGenerationRequest → List SpeechSegment
  | [] => []
  | req :: rest =>
      workerProcessRequest synth req :: speechGenerationWorker synth rest

/-- Outcome of one pass through speechGenerationWorker's select
(main.go:338-342). -/
inductive WorkerStep where
  | stopped
  | processed (seg : SpeechSegment)
  | blocked
deriving DecidableEq, Repr

/-- One scheduling decision of speechGenerationWorker's select
(main.go:338-342).  `stopClosed` is whether the stop channel has been
closed (a closed channel is always ready); `pendingReq` is the request
available on the request channel, if any.  Per the Go language
specification, when several select cases are ready one is chosen by a
uniform pseudo-random selection; `pickStop` resolves that choice when both
cases are ready. -/
def workerSelect (synth : Synthesizer) (stopClosed : Bool)
    (pendingReq : Option SpeechGenerationRequest) (pickStop : Bool) :
    WorkerStep :=
  match stopClosed, pendingReq with
  | true, none => .stopped
  | false, some req => .processed (workerProcessRequest synth req)
  | true, some req =>
      if pickStop then .stopped else .processed (workerProcessRequest synth req)
  | false, none => .blocked

/-- ASCII decimal digit character, as written by Go's fmt for digits 0-9. -/
def digitChar (d : Nat) : Char := Char.ofNat (48 + d)

/-- Structural worker for decimal digit extraction; the first argument is
recursion fuel (n itself suffices, as n/10 < n), keeping the recursion
structural so that terms evaluate inside proofs. -/
def decimalDigitsAux : Nat → Nat → List Nat
  | 0, n => [n]
  | fuel + 1, n =>
      if n < 10 then [n]
      else decimalDigitsAux fuel (n / 10) ++ [n % 10]

/-- Big-endian decimal digits of a natural number (the digits fmt's %d
prints). -/
def decimalDigits (n : Nat) : List Nat := decimalDigitsAux n n

/-- Digit list printed by %03d: decimal digits zero-padded to width at
least 3. -/
def padDigits3 (n : Nat) : List Nat :=
  List.replicate (3 - (decimalDigits n).length) 0 ++ decimalDigits n

/-- The %03d conversion of fmt.Sprintf: zero-padded to minimum width 3
(wider for n ≥ 1000). -/
def zeroPad3 (n : Nat) : String :=
  String.mk ((padDigits3 n).map digitChar)

/-- The per-index segment file path, fmt.Sprintf("%s/segment_%03d.mp3",
tempDir, index), built identically at main.go:230 and main.go:453. -/
def segmentFilename (tempDir : String) (index : Nat) : String :=
  tempDir ++ "/segment_" ++ zeroPad3 index ++ ".mp3"

/-- A filesystem: map from path to file contents. -/
abbrev Fs := String → Option Bytes

/-- os.WriteFile semantics: create or truncate, then write the bytes. -/
def fsWrite (fsys : Fs) (path : String) (contents : Bytes) : Fs :=
  fun p => if p = path then some contents else fsys p

/-- The Segment Store operation performed by processOrderedSegment
(main.go:452-455): write the segment's audio to the per-index file and
return the updated filesystem together with the file path. -/
def saveSegment (fsys : Fs) (tempDir : String) (index : Nat)
    (audio : Bytes) : Fs × String :=
  let path := segmentFilename tempDir index
  (fsWrite fsys path audio, path)

/-- Observable steps of the coordinator, recorded as a ghost trace:
a request sent on the request channel, a segment received from the result
channel, a segment's audio written to its file (the release), and a file
handed to the Player. -/
inductive Event where
  | issue (index : Nat)
  | receive (index : Nat)
  | write (index : Nat) (path : String)
  | play (path : String)
deriving DecidableEq, Repr

/-- Fatal pipeline errors (section 7 of the spec; main.go:395, 400, 485). -/
inductive PipelineError where
  | timeout
  | synthesis (index : Nat) (underlying : SynthError)
  | playback (underlying : String)
deriving DecidableEq, Repr

/-- The environment of one pipeline run: the dialogue messages, the host
map, config bits used by the loop, and the Player collaborator
(audioProcessor.Play, returning an error or nil). -/
structure PipelineEnv where
  messages : List Message
  hostMap : String → Option HostInfo
  apiKey : String
  dryRun : Bool
  tempDir : String
  player : String → Option String

/-- Mutable state of processSegments: the release cursor playedIndex, the
issue cursor currentIndex, the shared segment buffer, the accumulated file
list, and the ghost event trace. -/
structure LoopState where
  playedIndex : Nat
  currentIndex : Nat
  buffer : List SpeechSegment
  audioFiles : List String
  trace : List Event
deriving DecidableEq, Repr

/-- The request created for message index i (main.go:281-287 and 375-381):
createSpeechRequest on the i-th message. -/
def requestFor (env : PipelineEnv) (i : Nat) : SpeechGenerationRequest :=
  createSpeechRequest
    { msg := env.messages.getD i ⟨"", ""⟩, index := i,
      hostMap := env.hostMap, apiKey := env.apiKey }

/-- The scan-and-remove of processOrderedSegment (main.go:433-450): find
the first buffered segment whose Index equals the release cursor and
remove it, or report that the right segment has not arrived yet. -/
def takeIfNext (playedIndex : Nat) :
    List SpeechSegment → Option (SpeechSegment × List SpeechSegment)
  | [] => none
  | seg :: rest =>
      if seg.index = playedIndex then some (seg, rest)
      else
        match takeIfNext playedIndex rest with
        | none => none
        | some (s, rest') => some (s, seg :: rest')

/-- Result of processOrderedSegment: either the updated state together with
the released file path (none when the next segment has not arrived), or a
fatal error with the state as of the failure. -/
inductive SegStepResult where
  | ok (st : LoopState) (released : Option String)
  | fail (st : LoopState) (e : PipelineError)

/-- processOrderedSegment (main.go:431-474): release the buffered segment
whose index equals the release cursor, if present: remove it from the
buffer, write its audio to the per-index file, and in dry-run mode play
the file synchronously via the Player. -/
def processOrderedSegment (env : PipelineEnv) (st : LoopState) :
    SegStepResult :=
  match takeIfNext st.playedIndex st.buffer with
  | none => .ok st none
  | some (nextSegment, buf') =>
      let filename := segmentFilename env.tempDir st.playedIndex
      let _ := nextSegment.audioData
      let st1 : LoopState :=
        { st with buffer := buf',
                  trace := st.trace ++ [.write st.playedIndex filename] }
      if env.dryRun then
        match env.player filename with
        | some e => .fail st1 (.playback e)
        | none =>
            .ok { st1 with trace := st1.trace ++ [.play filename] }
              (some filename)
      else .ok st1 (some filename)

/-- The per-wait timeout of the coordinator's select, 30 * time.Second
(main.go:393). -/
def timeoutSeconds : Nat := 30

/-- The lookahead window, bufferSize := 2 (main.go:263). -/
def bufferSize : Nat := 2

/-- One delivery on the result channel: the number of seconds the
coordinator's select waits before this segment is available, and the
segment.  A wait of timeoutSeconds or more makes the time.After case fire
first. -/
structure Arrival where
  wait : Nat
  segment : SpeechSegment
deriving DecidableEq, Repr

/-- The request-issuing block at the top of the loop (main.go:373-385):
if un-issued messages remain, create the next request via
createSpeechRequest and send it on the request channel (recorded as an
issue event), advancing currentIndex. -/
def issueIfPending (env : PipelineEnv) (st : LoopState) : LoopState :=
  if st.currentIndex < env.messages.length then
    let _ := requestFor env st.currentIndex
    { st with currentIndex := st.currentIndex + 1,
              trace := st.trace ++ [.issue st.currentIndex] }
  else st

instance {ε α : Type} [DecidableEq ε] [DecidableEq α] :
    DecidableEq (Except ε α) := fun a b =>
  match a, b with
  | .ok x, .ok y =>
      if h : x = y then isTrue (by rw [h])
      else isFalse (fun hh => h (Except.ok.inj hh))
  | .error x, .error y =>
      if h : x = y then isTrue (by rw [h])
      else isFalse (fun hh => h (Except.error.inj hh))
  | .ok _, .error _ => isFalse Except.noConfusion
  | .error _, .ok _ => isFalse Except.noConfusion

/-- Outcome of processSegments: Go's ([]string, error) pair, nil list on
error, together with the ghost trace. -/
structure RunOutcome where
  result : Except PipelineError (List String)
  trace : List Event
deriving DecidableEq, Repr

/-- processSegments (main.go:364-428), driven by the channel history
`arrivals`: while the release cursor has not reached the end, issue the
next request if any remain, then receive one segment from the result
channel with a 30-second timeout (re-armed each iteration), abort on a
segment error, append the segment to the buffer, and attempt one in-order
release via processOrderedSegment. -/
def processSegmentsLoop (env : PipelineEnv) :
    List Arrival → LoopState → RunOutcome
  | arrivals, st =>
    if st.playedIndex < env.messages.length then
      let st1 := issueIfPending env st
      match arrivals with
      | [] => { result := .error .timeout, trace := st1.trace }
      | a :: rest =>
          if timeoutSeconds ≤ a.wait then
            { result := .error .timeout, trace := st1.trace }
          else
            let st2 : LoopState :=
              { st1 with trace := st1.trace ++ [.receive a.segment.index] }
            match a.segment.error with
            | some e =>
                { result := .error (.synthesis a.segment.index e),
                  trace := st2.trace }
            | none =>
                let st3 : LoopState :=
                  { st2 with buffer := st2.buffer ++ [a.segment] }
                match processOrderedSegment env st3 with
                | .fail st4 e => { result := .error e, trace := st4.trace }
                | .ok st4 released =>
                    match released with
                    | some filename =>
                        processSegmentsLoop env rest
                          { st4 with
                            audioFiles := st4.audioFiles ++ [filename],
                            playedIndex := st4.playedIndex + 1 }
                    | none => processSegmentsLoop env rest st4
    else { result := .ok st.audioFiles, trace := st.trace }

/-- The state after the pre-generation block of generateAndPlayLocally
(main.go:277-291): the first min(bufferSize, N) requests issued up front,
cursors and buffer fresh. -/
def prefillState (env : PipelineEnv) : LoopState :=
  { playedIndex := 0,
    currentIndex := min bufferSize env.messages.length,
    buffer := [], audioFiles := [],
    trace := (List.range (min bufferSize env.messages.length)).map
      Event.issue }

/-- The segment the single worker produces for message index i. -/
def segIndexed (env : PipelineEnv) (synth : Synthesizer) (i : Nat) :
    SpeechSegment :=
  workerProcessRequest synth (requestFor env i)

/-- The realizable result-channel history of the full program: exactly one
worker goroutine serves the FIFO request channel and answers on the FIFO
result channel, so deliveries are the worker's responses to the issued
requests in issue order, i.e. in ascending message index; `waits i` is the
time the coordinator's i-th select waits for its delivery. -/
def pipelineArrivals (env : PipelineEnv) (synth : Synthesizer)
    (waits : Nat → Nat) : List Arrival :=
  (List.range env.messages.length).map fun i =>
    { wait := waits i, segment := segIndexed env synth i }

/-- Outcome of generateAndPlayLocally's pipeline portion, with the ghost
observations of worker lifecycle management. -/
structure PipelineRun where
  result : Except PipelineError (List String)
  trace : List Event
  stopSent : Bool
  workersSpawned : Nat

/-- generateAndPlayLocally (main.go:242-333), pipeline portion: spawn
exactly one speech worker (unconditionally, main.go:274), pre-fill the
lookahead window, run processSegments, and close the stop channel on both
the error path (main.go:307) and the success path (main.go:311). -/
def generateAndPlayLocally (env : PipelineEnv) (synth : Synthesizer)
    (waits : Nat → Nat) : PipelineRun :=
  let out :=
    processSegmentsLoop env (pipelineArrivals env synth waits)
      (prefillState env)
  { result := out.result, trace := out.trace,
    stopSent := true, workersSpawned := 1 }

/-- Requests recorded in a trace (sent on the request channel). -/
def issuedCount (tr : List Event) : Nat :=
  (tr.filter fun e => match e with | .issue _ => true | _ => false).length

/-- Releases recorded in a trace (segments removed from the buffer and
written to their file). -/
def releasedCount (tr : List Event) : Nat :=
  (tr.filter fun e => match e with | .write _ _ => true | _ => false).length

/-- The filenames handed to the Player, in trace order. -/
def playLog (tr : List Event) : List String :=
  tr.filterMap fun e => match e with | .play p => some p | _ => none

/-- The (index, path) writes, in trace order. -/
def writeLog (tr : List Event) : List (Nat × String) :=
  tr.filterMap fun e =>
    match e with | .write i p => some (i, p) | _ => none

/-- The synthesizer's answer for the request of message index i (what the
worker computes when it serves that request). -/
def synthAt (env : PipelineEnv) (synth : Synthesizer) (i : Nat) :
    Except SynthError Bytes :=
  synth (requestFor env i).msg.content (requestFor env i).voice

/-- A clean step at index i: the synthesizer succeeds on line i, its result
is delivered within the 30-second wait, and (in dry-run mode) the Player
accepts the i-th file. -/
def StepClean (env : PipelineEnv) (synth : Synthesizer)
    (waits : Nat → Nat) (i : Nat) : Prop :=
  (synthAt env synth i).isOk = true ∧ waits i < timeoutSeconds ∧
    (env.dryRun = true → env.player (segmentFilename env.tempDir i) = none)

instance (env : PipelineEnv) (synth : Synthesizer) (waits : Nat → Nat)
    (i : Nat) : Decidable (StepClean env synth waits i) := by
  unfold StepClean; infer_instance

/-- The issue event of iteration j, present while un-issued messages
remain. -/
def issuePart (env : PipelineEnv) (j : Nat) : List Event :=
  if bufferSize + j < env.messages.length then [Event.issue (bufferSize + j)]
  else []

/-- The playback event of iteration j, present in dry-run mode. -/
def playPart (env : PipelineEnv) (j : Nat) : List Event :=
  if env.dryRun then [Event.play (segmentFilename env.tempDir j)] else []

/-- All events of the j-th clean loop iteration. -/
def iterEvents (env : PipelineEnv) (j : Nat) : List Event :=
  issuePart env j ++
    [Event.receive j, Event.write j (segmentFilename env.tempDir j)] ++
    playPart env j

/-- The trace after k clean iterations (prefill issues first). -/
def traceAt (env : PipelineEnv) : Nat → List Event
  | 0 => (List.range (min bufferSize env.messages.length)).map Event.issue
  | k + 1 => traceAt env k ++ iterEvents env k

/-- The loop state at the head of iteration k of a clean in-order run. -/
def stateAt (env : PipelineEnv) (k : Nat) : LoopState :=
  { playedIndex := k,
    currentIndex := min (bufferSize + k) env.messages.length,
    buffer := [],
    audioFiles := (List.range k).map (segmentFilename env.tempDir),
    trace := traceAt env k }

/-- The deliveries still pending at the head of iteration k of an in-order
run: the worker's responses for messages k, k+1, …, N-1. -/
def arrivalsFrom (env : PipelineEnv) (synth : Synthesizer)
    (waits : Nat → Nat) (k : Nat) : List Arrival :=
  (List.range' k (env.messages.length - k)).map fun i =>
    { wait := waits i, segment := segIndexed env synth i }

lemma requestFor_msg (env : PipelineEnv) (i : Nat) :
    (requestFor env i).msg = env.messages.getD i ⟨"", ""⟩ := by
  unfold requestFor createSpeechRequest
  dsimp only
  cases env.hostMap (env.messages.getD i ⟨"", ""⟩).host <;> rfl

lemma requestFor_index (env : PipelineEnv) (i : Nat) :
    (requestFor env i).index = i := by
  unfold requestFor createSpeechRequest
  dsimp only
  cases env.hostMap (env.messages.getD i ⟨"", ""⟩).host <;> rfl

@[simp] lemma segIndexed_index (env : PipelineEnv) (synth : Synthesizer)
    (i : Nat) : (segIndexed env synth i).index = i := by
  unfold segIndexed workerProcessRequest
  cases synth (requestFor env i).msg.content (requestFor env i).voice <;>
    simp [requestFor_index]

lemma segIndexed_of_ok (env : PipelineEnv) (synth : Synthesizer) (i : Nat)
    (b : Bytes) (hs : synthAt env synth i = .ok b) :
    segIndexed env synth i =
      { audioData := b, host := (requestFor env i).msg.host, index := i,
        error := none, msg := (requestFor env i).msg } := by
  unfold segIndexed workerProcessRequest
  rw [show synth (requestFor env i).msg.content (requestFor env i).voice =
        synthAt env synth i from rfl, hs]
  simp [requestFor_index]

lemma segIndexed_of_error (env : PipelineEnv) (synth : Synthesizer)
    (i : Nat) (e : SynthError) (hs : synthAt env synth i = .error e) :
    segIndexed env synth i =
      { audioData := [], host := (requestFor env i).msg.host, index := i,
        error := some e, msg := (requestFor env i).msg } := by
  unfold segIndexed workerProcessRequest
  rw [show synth (requestFor env i).msg.content (requestFor env i).voice =
        synthAt env synth i from rfl, hs]
  simp [requestFor_index]

lemma issueIfPending_stateAt (env : PipelineEnv) (k : Nat) :
    issueIfPending env (stateAt env k) =
      { stateAt env k with
        currentIndex := min (bufferSize + (k + 1)) env.messages.length,
        trace := traceAt env k ++ issuePart env k } := by
  unfold issueIfPending stateAt issuePart
  by_cases h2 : bufferSize + k < env.messages.length
  · have hmin : min (bufferSize + k) env.messages.length = bufferSize + k :=
      Nat.min_eq_left (Nat.le_of_lt h2)
    have hmin1 :
        min (bufferSize + (k + 1)) env.messages.length =
          bufferSize + (k + 1) := Nat.min_eq_left (by omega)
    simp [hmin, hmin1, h2]
    omega
  · have hmin : min (bufferSize + k) env.messages.length =
        env.messages.length := Nat.min_eq_right (by omega)
    have hmin1 : min (bufferSize + (k + 1)) env.messages.length =
        env.messages.length := Nat.min_eq_right (by omega)
    simp [hmin, hmin1, h2]

lemma arrivalsFrom_cons (env : PipelineEnv) (synth : Synthesizer)
    (waits : Nat → Nat) (k : Nat) (hk : k < env.messages.length) :
    arrivalsFrom env synth waits k =
      { wait := waits k, segment := segIndexed env synth k } ::
        arrivalsFrom env synth waits (k + 1) := by
  unfold arrivalsFrom
  obtain ⟨m, hm⟩ : ∃ m, env.messages.length - k = m + 1 :=
    ⟨env.messages.length - (k + 1), by omega⟩
  rw [hm, show env.messages.length - (k + 1) = m from by omega,
    List.range'_succ]
  simp

lemma takeIfNext_single (p : Nat) (seg : SpeechSegment)
    (h : seg.index = p) : takeIfNext p [seg] = some (seg, []) := by
  simp [takeIfNext, h]

/-- One loop iteration of processSegments at the head state of iteration k
of an in-order run: the request for message bufferSize+k is issued first
(when un-issued messages remain), then either the wait times out, or the
received segment carries a synthesis error, or the segment is released —
writing its file, playing it in dry-run mode (aborting if the Player
fails), and advancing to the head state of iteration k+1. -/
lemma loop_iter (env : PipelineEnv) (synth : Synthesizer) (waits : Nat → Nat)
    (k : Nat) (hk : k < env.messages.length) :
    processSegmentsLoop env (arrivalsFrom env synth waits k) (stateAt env k) =
      if timeoutSeconds ≤ waits k then
        { result := .error .timeout,
          trace := traceAt env k ++ issuePart env k }
      else
        match synthAt env synth k with
        | .error e =>
            { result := .error (.synthesis k e),
              trace := traceAt env k ++ issuePart env k ++ [Event.receive k] }
        | .ok _ =>
            match env.dryRun, env.player (segmentFilename env.tempDir k) with
            | true, some e =>
                { result := .error (.playback e),
                  trace := traceAt env k ++ issuePart env k ++
                    [Event.receive k,
                     Event.write k (segmentFilename env.tempDir k)] }
            | true, none =>
                processSegmentsLoop env (arrivalsFrom env synth waits (k+1))
                  (stateAt env (k+1))
            | false, _ =>
                processSegmentsLoop env (arrivalsFrom env synth waits (k+1))
                  (stateAt env (k+1)) := by
  rw [arrivalsFrom_cons env synth waits k hk]
  conv_lhs => rw [processSegmentsLoop]
  rw [issueIfPending_stateAt env k]
  simp only [stateAt]
  rw [if_pos hk]
  by_cases h30 : timeoutSeconds ≤ waits k
  · rw [if_pos h30, if_pos h30]
  · rw [if_neg h30, if_neg h30]
    cases hs : synthAt env synth k with
    | error e =>
        rw [segIndexed_of_error env synth k e hs]
    | ok b =>
        rw [segIndexed_of_ok env synth k b hs]
        dsimp only
        unfold processOrderedSegment
        rw [show ([] : List SpeechSegment) ++
          [{ audioData := b, host := (requestFor env k).msg.host,
             index := k, error := none, msg := (requestFor env k).msg }] =
          [{ audioData := b, host := (requestFor env k).msg.host,
             index := k, error := none, msg := (requestFor env k).msg }]
          from List.nil_append _]
        rw [takeIfNext_single k _ rfl]
        dsimp only
        cases hdry : env.dryRun with
        | false =>
            simp [stateAt, traceAt, iterEvents, playPart, hdry,
              List.range_succ, List.append_assoc]
        | true =>
            cases hplay : env.player (segmentFilename env.tempDir k) with
            | some e => simp [List.append_assoc]
            | none =>
                simp [stateAt, traceAt, iterEvents, playPart, hdry,
                  List.range_succ, List.append_assoc]

lemma loop_step_clean (env : PipelineEnv) (synth : Synthesizer)
    (waits : Nat → Nat) (k : Nat) (hk : k < env.messages.length)
    (hc : StepClean env synth waits k) :
    processSegmentsLoop env (arrivalsFrom env synth waits k) (stateAt env k) =
      processSegmentsLoop env (arrivalsFrom env synth waits (k + 1))
        (stateAt env (k + 1)) := by
  obtain ⟨hok, h30, hp⟩ := hc
  rw [loop_iter env synth waits k hk, if_neg (by omega)]
  cases hs : synthAt env synth k with
  | error e => rw [hs] at hok; exact Bool.noConfusion hok
  | ok b =>
      cases hdry : env.dryRun with
      | false => rfl
      | true => rw [hp hdry]

lemma loop_unwind (env : PipelineEnv) (synth : Synthesizer)
    (waits : Nat → Nat) (K : Nat) (hK : K ≤ env.messages.length)
    (hc : ∀ i < K, StepClean env synth waits i) :
    processSegmentsLoop env (arrivalsFrom env synth waits 0) (stateAt env 0) =
      processSegmentsLoop env (arrivalsFrom env synth waits K)
        (stateAt env K) := by
  induction K with
  | zero => rfl
  | succ n ih =>
      rw [ih (by omega) (fun i hi => hc i (by omega)),
        loop_step_clean env synth waits n (by omega) (hc n (by omega))]

lemma loop_finish (env : PipelineEnv) (synth : Synthesizer)
    (waits : Nat → Nat) :
    processSegmentsLoop env
        (arrivalsFrom env synth waits env.messages.length)
        (stateAt env env.messages.length) =
      { result := .ok ((List.range env.messages.length).map
          (segmentFilename env.tempDir)),
        trace := traceAt env env.messages.length } := by
  conv_lhs => rw [processSegmentsLoop]
  simp only [stateAt]
  rw [if_neg (lt_irrefl _)]

lemma prefill_eq_state0 (env : PipelineEnv) :
    prefillState env = stateAt env 0 := rfl

lemma arrivals_eq (env : PipelineEnv) (synth : Synthesizer)
    (waits : Nat → Nat) :
    pipelineArrivals env synth waits = arrivalsFrom env synth waits 0 := by
  unfold pipelineArrivals arrivalsFrom
  rw [List.range_eq_range']
  rfl

/-- Master theorem for a clean run: when every step is clean, the pipeline
returns the full ordered file list and the trace of N clean iterations. -/
theorem run_clean (env : PipelineEnv) (synth : Synthesizer)
    (waits : Nat → Nat)
    (hc : ∀ i < env.messages.length, StepClean env synth waits i) :
    generateAndPlayLocally env synth waits =
      { result := .ok ((List.range env.messages.length).map
          (segmentFilename env.tempDir)),
        trace := traceAt env env.messages.length,
        stopSent := true, workersSpawned := 1 } := by
  unfold generateAndPlayLocally
  rw [arrivals_eq, prefill_eq_state0,
    loop_unwind env synth waits env.messages.length le_rfl hc, loop_finish]

/-- A run that reaches iteration k cleanly and then receives a failed
segment aborts with a SynthesisError wrapping the line index and the
underlying error; the Go return is (nil, err), so no file list is
produced. -/
theorem run_synth_fail (env : PipelineEnv) (synth : Synthesizer)
    (waits : Nat → Nat) (k : Nat) (hk : k < env.messages.length)
    (hc : ∀ i < k, StepClean env synth waits i)
    (h30 : waits k < timeoutSeconds) (e : SynthError)
    (he : synthAt env synth k = .error e) :
    generateAndPlayLocally env synth waits =
      { result := .error (.synthesis k e),
        trace := traceAt env k ++ issuePart env k ++ [Event.receive k],
        stopSent := true, workersSpawned := 1 } := by
  unfold generateAndPlayLocally
  rw [arrivals_eq, prefill_eq_state0,
    loop_unwind env synth waits k (by omega) hc,
    loop_iter env synth waits k hk, if_neg (by omega), he]

/-- A run that reaches iteration k cleanly and then waits 30 seconds or
more for the next segment aborts with a TimeoutError (nil file list). -/
theorem run_timeout (env : PipelineEnv) (synth : Synthesizer)
    (waits : Nat → Nat) (k : Nat) (hk : k < env.messages.length)
    (hc : ∀ i < k, StepClean env synth waits i)
    (h30 : timeoutSeconds ≤ waits k) :
    generateAndPlayLocally env synth waits =
      { result := .error .timeout,
        trace := traceAt env k ++ issuePart env k,
        stopSent := true, workersSpawned := 1 } := by
  unfold generateAndPlayLocally
  rw [arrivals_eq, prefill_eq_state0,
    loop_unwind env synth waits k (by omega) hc,
    loop_iter env synth waits k hk, if_pos h30]

/-- A run that reaches iteration k cleanly, releases segment k, and then
fails to play it aborts with a PlaybackError; the file write of segment k
has already happened. -/
theorem run_playback_fail (env : PipelineEnv) (synth : Synthesizer)
    (waits : Nat → Nat) (k : Nat) (hk : k < env.messages.length)
    (hc : ∀ i < k, StepClean env synth waits i)
    (h30 : waits k < timeoutSeconds) (b : Bytes)
    (he : synthAt env synth k = .ok b) (hdry : env.dryRun = true)
    (e : String)
    (hp : env.player (segmentFilename env.tempDir k) = some e) :
    generateAndPlayLocally env synth waits =
      { result := .error (.playback e),
        trace := traceAt env k ++ issuePart env k ++
          [Event.receive k, Event.write k (segmentFilename env.tempDir k)],
        stopSent := true, workersSpawned := 1 } := by
  unfold generateAndPlayLocally
  rw [arrivals_eq, prefill_eq_state0,
    loop_unwind env synth waits k (by omega) hc,
    loop_iter env synth waits k hk, if_neg (by omega), he, hdry, hp]

/-- generateAndPlayLocally closes the stop channel on both its exit paths
(main.go:307 and 311): every run, failed or successful, has sent the stop
signal by the time it returns. -/
theorem run_stopSent (env : PipelineEnv) (synth : Synthesizer)
    (waits : Nat → Nat) :
    (generateAndPlayLocally env synth waits).stopSent = true := rfl

lemma prefix_append_cases {α : Type} (a : List α) :
    ∀ p b, p <+: a ++ b → p <+: a ∨ ∃ q, q <+: b ∧ p = a ++ q := by
  induction a with
  | nil =>
      intro p b h
      right
      exact ⟨p, by simpa using h, by simp⟩
  | cons x xs ih =>
      intro p b h
      cases p with
      | nil => left; exact List.nil_prefix
      | cons y ys =>
          rw [List.cons_append, List.cons_prefix_cons] at h
          obtain ⟨rfl, h2⟩ := h
          rcases ih ys b h2 with h3 | ⟨q, hq, rfl⟩
          · left; exact List.cons_prefix_cons.mpr ⟨rfl, h3⟩
          · right; exact ⟨q, hq, by simp⟩

lemma traceAt_succ (env : PipelineEnv) (k : Nat) :
    traceAt env (k + 1) = traceAt env k ++ iterEvents env k := rfl

lemma traceAt_mono (env : PipelineEnv) {k m : Nat} (h : k ≤ m) :
    traceAt env k <+: traceAt env m := by
  induction m with
  | zero =>
      have hk : k = 0 := by omega
      subst hk; exact List.prefix_refl _
  | succ n ih =>
      rcases Nat.lt_or_ge k (n + 1) with h1 | h1
      · exact (ih (by omega)).trans
          (by rw [traceAt_succ]; exact List.prefix_append _ _)
      · have hk : k = n + 1 := by omega
        subst hk; exact List.prefix_refl _

lemma issuePart_prefix_iter (env : PipelineEnv) (k : Nat) :
    issuePart env k <+: iterEvents env k := by
  unfold iterEvents
  rw [List.append_assoc]
  exact List.prefix_append _ _

lemma issueReceive_prefix_iter (env : PipelineEnv) (k : Nat) :
    issuePart env k ++ [Event.receive k] <+: iterEvents env k := by
  unfold iterEvents
  rw [show [Event.receive k,
      Event.write k (segmentFilename env.tempDir k)] =
    [Event.receive k] ++ [Event.write k (segmentFilename env.tempDir k)]
    from rfl]
  rw [← List.append_assoc, List.append_assoc (issuePart env k ++ [Event.receive k])]
  exact List.prefix_append _ _

lemma issueReceiveWrite_prefix_iter (env : PipelineEnv) (k : Nat) :
    issuePart env k ++
      [Event.receive k, Event.write k (segmentFilename env.tempDir k)] <+:
      iterEvents env k := by
  unfold iterEvents
  exact List.prefix_append _ _

/-- Trace bounds for an arbitrary run of the loop started at the head of
iteration k: the trace extends the k-iteration trace and is a piece of the
full clean trace. -/
lemma loop_trace_from (env : PipelineEnv) (synth : Synthesizer)
    (waits : Nat → Nat) :
    ∀ m k, k ≤ env.messages.length → env.messages.length - k = m →
    traceAt env k <+:
      (processSegmentsLoop env (arrivalsFrom env synth waits k)
        (stateAt env k)).trace ∧
    (processSegmentsLoop env (arrivalsFrom env synth waits k)
        (stateAt env k)).trace <+: traceAt env env.messages.length := by
  intro m
  induction m with
  | zero =>
      intro k hk hm
      have hkN : k = env.messages.length := by omega
      subst hkN
      rw [loop_finish]
      exact ⟨List.prefix_refl _, List.prefix_refl _⟩
  | succ n ih =>
      intro k hk hm
      have hkN : k < env.messages.length := by omega
      have hmid : ∀ X : List Event, X <+: iterEvents env k →
          traceAt env k ++ X <+: traceAt env env.messages.length := by
        intro X hX
        refine List.IsPrefix.trans ?_ (traceAt_mono env (show k + 1 ≤ env.messages.length by omega))
        rw [traceAt_succ]
        exact (List.prefix_append_right_inj _).mpr hX
      rw [loop_iter env synth waits k hkN]
      by_cases h30 : timeoutSeconds ≤ waits k
      · rw [if_pos h30]
        exact ⟨List.prefix_append _ _, hmid _ (issuePart_prefix_iter env k)⟩
      · rw [if_neg h30]
        cases hs : synthAt env synth k with
        | error e =>
            dsimp only
            refine ⟨?_, ?_⟩
            · rw [List.append_assoc]
              exact List.prefix_append _ _
            · rw [List.append_assoc]
              exact hmid _ (issueReceive_prefix_iter env k)
        | ok b =>
            cases hdry : env.dryRun with
            | true =>
                cases hplay : env.player (segmentFilename env.tempDir k) with
                | some e =>
                    dsimp only
                    refine ⟨?_, ?_⟩
                    · rw [List.append_assoc]
                      exact List.prefix_append _ _
                    · rw [List.append_assoc]
                      exact hmid _ (issueReceiveWrite_prefix_iter env k)
                | none =>
                    obtain ⟨ih1, ih2⟩ := ih (k + 1) (by omega) (by omega)
                    exact ⟨((traceAt_mono env (show k ≤ k + 1 by omega)).trans ih1), ih2⟩
            | false =>
                obtain ⟨ih1, ih2⟩ := ih (k + 1) (by omega) (by omega)
                exact ⟨((traceAt_mono env (show k ≤ k + 1 by omega)).trans ih1), ih2⟩

/-- Every run's trace starts with the prefill issues and is a piece of the
full clean trace. -/
theorem run_trace_bounds (env : PipelineEnv) (synth : Synthesizer)
    (waits : Nat → Nat) :
    traceAt env 0 <+: (generateAndPlayLocally env synth waits).trace ∧
      (generateAndPlayLocally env synth waits).trace <+:
        traceAt env env.messages.length := by
  have h := loop_trace_from env synth waits (env.messages.length - 0) 0
    (by omega) rfl
  obtain ⟨h1, h2⟩ := h
  unfold generateAndPlayLocally
  rw [arrivals_eq, prefill_eq_state0]
  exact ⟨(traceAt_mono env (Nat.zero_le 0)).trans h1, h2⟩

lemma issuedCount_append (a b : List Event) :
    issuedCount (a ++ b) = issuedCount a + issuedCount b := by
  simp [issuedCount, List.filter_append]

lemma releasedCount_append (a b : List Event) :
    releasedCount (a ++ b) = releasedCount a + releasedCount b := by
  simp [releasedCount, List.filter_append]

lemma issuedCount_le_of_prefix (p l : List Event) (h : p <+: l) :
    issuedCount p ≤ issuedCount l :=
  ((h.sublist.filter _).length_le)

lemma issuedCount_traceAt0 (env : PipelineEnv) :
    issuedCount (traceAt env 0) = min bufferSize env.messages.length := by
  show issuedCount ((List.range (min bufferSize env.messages.length)).map
    Event.issue) = _
  unfold issuedCount
  rw [List.filter_map]
  rw [show ((fun e => match e with
      | Event.issue _ => true
      | _ => false) ∘ Event.issue) = fun _ : Nat => true from rfl]
  simp

lemma releasedCount_traceAt0 (env : PipelineEnv) :
    releasedCount (traceAt env 0) = 0 := by
  show releasedCount ((List.range (min bufferSize env.messages.length)).map
    Event.issue) = _
  unfold releasedCount
  rw [List.filter_map]
  rw [show ((fun e => match e with
      | Event.write _ _ => true
      | _ => false) ∘ Event.issue) = fun _ : Nat => false from rfl]
  simp

lemma issuedCount_iter (env : PipelineEnv) (k : Nat) :
    issuedCount (iterEvents env k) =
      if bufferSize + k < env.messages.length then 1 else 0 := by
  unfold iterEvents issuePart playPart
  by_cases h2 : bufferSize + k < env.messages.length <;>
    cases hdry : env.dryRun <;>
      simp [h2, hdry, issuedCount, List.filter_append]

lemma releasedCount_iter (env : PipelineEnv) (k : Nat) :
    releasedCount (iterEvents env k) = 1 := by
  unfold iterEvents issuePart playPart
  by_cases h2 : bufferSize + k < env.messages.length <;>
    cases hdry : env.dryRun <;>
      simp [h2, hdry, releasedCount, List.filter_append]

lemma issuedCount_traceAt (env : PipelineEnv) (k : Nat) :
    issuedCount (traceAt env k) =
      min (bufferSize + k) env.messages.length := by
  induction k with
  | zero => rw [issuedCount_traceAt0]; omega
  | succ n ih =>
      rw [traceAt_succ, issuedCount_append, ih, issuedCount_iter]
      by_cases h2 : bufferSize + n < env.messages.length <;> simp [h2] <;>
        omega

lemma releasedCount_traceAt (env : PipelineEnv) (k : Nat) :
    releasedCount (traceAt env k) = k := by
  induction k with
  | zero => rw [releasedCount_traceAt0]
  | succ n ih => rw [traceAt_succ, releasedCount_append, ih, releasedCount_iter]

/-- The outstanding-request bound over every point of the clean trace:
issued but not yet released requests never exceed bufferSize + 1. -/
lemma outstanding_le_traceAt (env : PipelineEnv) (k : Nat) :
    ∀ p, p <+: traceAt env k →
      issuedCount p ≤ releasedCount p + (bufferSize + 1) := by
  induction k with
  | zero =>
      intro p hp
      have h1 : issuedCount p ≤ min bufferSize env.messages.length := by
        have := issuedCount_le_of_prefix p _ hp
        rwa [issuedCount_traceAt0] at this
      have h2 : min bufferSize env.messages.length ≤ bufferSize :=
        Nat.min_le_left _ _
      omega
  | succ n ih =>
      intro p hp
      rw [traceAt_succ] at hp
      rcases prefix_append_cases _ p _ hp with h | ⟨q, hq, rfl⟩
      · exact ih p h
      · rw [issuedCount_append, releasedCount_append]
        have h1 : issuedCount q ≤ 1 := by
          have := issuedCount_le_of_prefix q _ hq
          rw [issuedCount_iter] at this
          by_cases h2 : bufferSize + n < env.messages.length <;>
            simp [h2] at this <;> omega
        have h3 : issuedCount (traceAt env n) =
            min (bufferSize + n) env.messages.length :=
          issuedCount_traceAt env n
        have h4 : releasedCount (traceAt env n) = n :=
          releasedCount_traceAt env n
        have h5 : min (bufferSize + n) env.messages.length ≤ bufferSize + n :=
          Nat.min_le_left _ _
        omega

lemma playLog_append (a b : List Event) :
    playLog (a ++ b) = playLog a ++ playLog b := by
  simp [playLog, List.filterMap_append]

lemma writeLog_append (a b : List Event) :
    writeLog (a ++ b) = writeLog a ++ writeLog b := by
  simp [writeLog, List.filterMap_append]

lemma playLog_traceAt0 (env : PipelineEnv) : playLog (traceAt env 0) = [] := by
  show playLog ((List.range (min bufferSize env.messages.length)).map
    Event.issue) = _
  unfold playLog
  rw [List.filterMap_map]
  rw [show ((fun e => match e with
      | Event.play p => some p
      | _ => none) ∘ Event.issue) = fun _ : Nat => (none : Option String)
    from rfl]
  simp

lemma writeLog_traceAt0 (env : PipelineEnv) :
    writeLog (traceAt env 0) = [] := by
  show writeLog ((List.range (min bufferSize env.messages.length)).map
    Event.issue) = _
  unfold writeLog
  rw [List.filterMap_map]
  rw [show ((fun e => match e with
      | Event.write i p => some (i, p)
      | _ => none) ∘ Event.issue) =
    fun _ : Nat => (none : Option (Nat × String)) from rfl]
  simp

lemma playLog_iter (env : PipelineEnv) (k : Nat) :
    playLog (iterEvents env k) =
      if env.dryRun then [segmentFilename env.tempDir k] else [] := by
  unfold iterEvents issuePart playPart
  by_cases h2 : bufferSize + k < env.messages.length <;>
    cases hdry : env.dryRun <;>
      simp [h2, hdry, playLog, List.filterMap_append]

lemma writeLog_iter (env : PipelineEnv) (k : Nat) :
    writeLog (iterEvents env k) = [(k, segmentFilename env.tempDir k)] := by
  unfold iterEvents issuePart playPart
  by_cases h2 : bufferSize + k < env.messages.length <;>
    cases hdry : env.dryRun <;>
      simp [h2, hdry, writeLog, List.filterMap_append]

/-- In a clean run the Player receives exactly the ascending-index file
sequence (dry-run mode), and nothing otherwise. -/
lemma playLog_traceAt (env : PipelineEnv) (k : Nat) :
    playLog (traceAt env k) =
      if env.dryRun then
        (List.range k).map (segmentFilename env.tempDir)
      else [] := by
  induction k with
  | zero => rw [playLog_traceAt0]; cases env.dryRun <;> simp
  | succ n ih =>
      rw [traceAt_succ, playLog_append, ih, playLog_iter]
      cases env.dryRun <;> simp [List.range_succ]

/-- File writes happen exactly once per index, in ascending index order. -/
lemma writeLog_traceAt (env : PipelineEnv) (k : Nat) :
    writeLog (traceAt env k) =
      (List.range k).map (fun i => (i, segmentFilename env.tempDir i)) := by
  induction k with
  | zero => rw [writeLog_traceAt0]; simp
  | succ n ih =>
      rw [traceAt_succ, writeLog_append, ih, writeLog_iter]
      simp [List.range_succ]

/-- Byte-wise lexicographic order on paths, as a directory listing sorts
them (Go compares strings byte by byte; the paths produced here are the
tempDir plus ASCII suffixes, where byte order and code-point order
coincide). -/
def pathLt (s t : String) : Prop := s.toList < t.toList

instance (s t : String) : Decidable (pathLt s t) := by
  unfold pathLt
  infer_instance

lemma strToList_append (s t : String) :
    (s ++ t).toList = s.toList ++ t.toList := by simp

lemma lex_append_left {α : Type} (r : α → α → Prop) (cs : List α)
    {as bs : List α} (h : List.Lex r as bs) :
    List.Lex r (cs ++ as) (cs ++ bs) := by
  induction cs with
  | nil => exact h
  | cons c cs ih => exact List.Lex.cons ih

lemma lex_append_of_length_eq {α : Type} (r : α → α → Prop)
    {as bs : List α} (xs ys : List α) (hlen : as.length = bs.length)
    (h : List.Lex r as bs) : List.Lex r (as ++ xs) (bs ++ ys) := by
  induction h with
  | nil => simp at hlen
  | cons h ih => exact List.Lex.cons (ih (by simpa using hlen))
  | rel h => exact List.Lex.rel h

lemma decimalDigitsAux_small (fuel x : Nat) (h : x < 10) :
    decimalDigitsAux fuel x = [x] := by
  cases fuel with
  | zero => rfl
  | succ g => simp [decimalDigitsAux, h]

lemma decimalDigitsAux_two (fuel x : Nat) (h1 : 10 ≤ x) (h2 : x < 100)
    (hf : 1 ≤ fuel) : decimalDigitsAux fuel x = [x / 10, x % 10] := by
  cases fuel with
  | zero => omega
  | succ g =>
      rw [show decimalDigitsAux (g + 1) x =
        if x < 10 then [x]
        else decimalDigitsAux g (x / 10) ++ [x % 10] from rfl]
      rw [if_neg (by omega), decimalDigitsAux_small g (x / 10) (by omega)]
      rfl

lemma decimalDigits_one (n : Nat) (h : n < 10) : decimalDigits n = [n] := by
  unfold decimalDigits
  exact decimalDigitsAux_small n n h

lemma decimalDigits_two (n : Nat) (h1 : 10 ≤ n) (h2 : n < 100) :
    decimalDigits n = [n / 10, n % 10] := by
  unfold decimalDigits
  exact decimalDigitsAux_two n n h1 h2 (by omega)

lemma decimalDigits_three (n : Nat) (h1 : 100 ≤ n) (h2 : n < 1000) :
    decimalDigits n = [n / 100, n / 10 % 10, n % 10] := by
  unfold decimalDigits
  obtain ⟨m, rfl⟩ : ∃ m, n = m + 1 := ⟨n - 1, by omega⟩
  rw [show decimalDigitsAux (m + 1) (m + 1) =
    if m + 1 < 10 then [m + 1]
    else decimalDigitsAux m ((m + 1) / 10) ++ [(m + 1) % 10] from rfl]
  rw [if_neg (by omega),
    decimalDigitsAux_two m ((m + 1) / 10) (by omega) (by omega) (by omega)]
  have ha : (m + 1) / 10 / 10 = (m + 1) / 100 := by omega
  rw [ha]
  rfl

lemma padDigits3_eq (n : Nat) (h : n < 1000) :
    padDigits3 n = [n / 100, n / 10 % 10, n % 10] := by
  unfold padDigits3
  rcases Nat.lt_or_ge n 10 with h1 | h1
  · rw [decimalDigits_one n h1]
    simp [List.replicate]
    omega
  · rcases Nat.lt_or_ge n 100 with h2 | h2
    · rw [decimalDigits_two n h1 h2]
      simp [List.replicate]
      omega
    · rw [decimalDigits_three n h2 h]
      simp

lemma digitChar_lt : ∀ a < 10, ∀ b < 10, a < b →
    digitChar a < digitChar b := by decide

lemma zeroPad3_toList (n : Nat) :
    (zeroPad3 n).toList = (padDigits3 n).map digitChar := rfl

lemma zeroPad3_length3 (n : Nat) (h : n < 1000) :
    (zeroPad3 n).toList.length = 3 := by
  rw [zeroPad3_toList, padDigits3_eq n h]
  rfl

lemma zeroPad3_mono (i j : Nat) (hij : i < j) (hj : j < 1000) :
    List.Lex (· < ·) (zeroPad3 i).toList (zeroPad3 j).toList := by
  have hi : i < 1000 := by omega
  rw [zeroPad3_toList, zeroPad3_toList, padDigits3_eq i hi, padDigits3_eq j hj]
  simp only [List.map]
  rcases Nat.lt_trichotomy (i / 100) (j / 100) with h1 | h1 | h1
  · exact List.Lex.rel (digitChar_lt _ (by omega) _ (by omega) h1)
  · rw [h1]
    rcases Nat.lt_trichotomy (i / 10 % 10) (j / 10 % 10) with h2 | h2 | h2
    · exact List.Lex.cons (List.Lex.rel (digitChar_lt _ (by omega) _ (by omega) h2))
    · rw [h2]
      have h3 : i % 10 < j % 10 := by omega
      exact List.Lex.cons (List.Lex.cons
        (List.Lex.rel (digitChar_lt _ (by omega) _ (by omega) h3)))
    · omega
  · omega

/-- For indices below 1000 the zero padding of %03d is genuinely
fixed-width, so the per-index file paths sort lexically in index order. -/
lemma segmentFilename_mono (d : String) (i j : Nat) (hij : i < j)
    (hj : j < 1000) : pathLt (segmentFilename d i) (segmentFilename d j) := by
  unfold pathLt segmentFilename
  have h : List.Lex (· < ·)
      ((d.toList ++ "/segment_".toList) ++
        ((zeroPad3 i).toList ++ ".mp3".toList))
      ((d.toList ++ "/segment_".toList) ++
        ((zeroPad3 j).toList ++ ".mp3".toList)) := by
    apply lex_append_left
    apply lex_append_of_length_eq _ _ _
      (by rw [zeroPad3_length3 i (by omega), zeroPad3_length3 j hj])
    exact zeroPad3_mono i j hij hj
  show List.Lex (· < ·) _ _
  rw [strToList_append, strToList_append, strToList_append,
    strToList_append, strToList_append, strToList_append]
  simpa [List.append_assoc] using h

/-- Concrete fixtures used by witnesses and counterexamples below. -/
def hostsW : List Host :=
  [⟨"Alice", "female", "tech expert", "nova"⟩,
   ⟨"Bob", "male", "economist", "echo"⟩]

/-- A concrete pipeline environment over the given messages. -/
def envOf (msgs : List Message) (dry : Bool) : PipelineEnv :=
  { messages := msgs, hostMap := CreateHostMap hostsW, apiKey := "key",
    dryRun := dry, tempDir := "/tmp/podcast", player := fun _ => none }

/-- A synthesizer succeeding on every line with fixed bytes. -/
def synthConst : Synthesizer := fun _ _ => .ok [1, 2]

/-- Prompt deliveries: every select wait is zero seconds. -/
def waits0 : Nat → Nat := fun _ => 0

/-- A concrete request for the witnesses. -/
def reqW : SpeechGenerationRequest :=
  createSpeechRequest
    { msg := ⟨"Alice", "hello"⟩, index := 0,
      hostMap := CreateHostMap hostsW, apiKey := "key" }

lemma worker_eq_map (synth : Synthesizer)
    (reqs : List SpeechGenerationRequest) :
    speechGenerationWorker synth reqs =
      reqs.map (workerProcessRequest synth) := by
  induction reqs with
  | nil => rfl
  | cons r rs ih => simp [speechGenerationWorker, ih]

/-- Claim C6 (confirmed): the speech worker emits exactly one segment per
consumed request, preserving index and speaker; on success the segment
carries the returned bytes with no error, on failure the error with empty
audio; and it keeps serving subsequent requests after a failure (its
output is position-by-position the image of its input, regardless of
earlier failures). -/
theorem claimC6_worker :
    (∀ synth reqs,
      (speechGenerationWorker synth reqs).length = reqs.length) ∧
    (∀ synth reqs i req, reqs.get? i = some req →
      (speechGenerationWorker synth reqs).get? i =
        some (workerProcessRequest synth req)) ∧
    (∀ synth req, (workerProcessRequest synth req).index = req.index ∧
      (workerProcessRequest synth req).host = req.msg.host) ∧
    (∀ synth req b, synth req.msg.content req.voice = .ok b →
      (workerProcessRequest synth req).audioData = b ∧
        (workerProcessRequest synth req).error = none) ∧
    (∀ synth req e, synth req.msg.content req.voice = .error e →
      (workerProcessRequest synth req).error = some e ∧
        (workerProcessRequest synth req).audioData = []) := by
  refine ⟨?_, ?_, ?_, ?_, ?_⟩
  · intro synth reqs
    rw [worker_eq_map]
    simp
  · intro synth reqs i req h
    rw [worker_eq_map]
    rw [List.get?_map, h]
    rfl
  · intro synth req
    unfold workerProcessRequest
    cases synth req.msg.content req.voice <;> exact ⟨rfl, rfl⟩
  · intro synth req b h
    unfold workerProcessRequest
    rw [h]
    exact ⟨rfl, rfl⟩
  · intro synth req e h
    unfold workerProcessRequest
    rw [h]
    exact ⟨rfl, rfl⟩

theorem claimC6_witness :
    (speechGenerationWorker synthConst [reqW]).length = 1 ∧
    (workerProcessRequest synthConst reqW).index = reqW.index ∧
    (workerProcessRequest synthConst reqW).audioData = [1, 2] :=
  ⟨claimC6_worker.1 synthConst [reqW],
   (claimC6_worker.2.2.1 synthConst reqW).1,
   (claimC6_worker.2.2.2.1 synthConst reqW [1, 2] rfl).1⟩

/-- Claim C8 (corrected): the worker waits on the stop signal and the
request channel with select/either semantics, but Go gives the stop case
no priority: when both are ready the winner is pseudo-random, so the
worker may process further requests after the stop broadcast.  It stops
immediately when stop is ready and no request is, or whenever the random
choice selects stop; absent a stop it processes an available request and
blocks when neither channel is ready. -/
theorem claimC8_amended (synth : Synthesizer)
    (req? : Option SpeechGenerationRequest) (pick : Bool) :
    (workerSelect synth true none pick = .stopped) ∧
    (workerSelect synth true req? true = .stopped) ∧
    (req? = none → workerSelect synth false req? pick = .blocked) ∧
    (∀ req, workerSelect synth false (some req) pick =
      .processed (workerProcessRequest synth req)) ∧
    (∀ req, workerSelect synth true (some req) false =
      .processed (workerProcessRequest synth req)) := by
  refine ⟨rfl, ?_, ?_, fun req => rfl, fun req => rfl⟩
  · cases req? <;> rfl
  · intro h
    subst h
    rfl

theorem claimC8_witness :
    workerSelect synthConst true none false = WorkerStep.stopped ∧
    workerSelect synthConst false none false = WorkerStep.blocked :=
  ⟨(claimC8_amended synthConst none false).1,
   (claimC8_amended synthConst none false).2.2.1 rfl⟩

theorem claimC8_counterexample :
    workerSelect synthConst true (some reqW) false =
      WorkerStep.processed (workerProcessRequest synthConst reqW) ∧
    workerSelect synthConst true (some reqW) false ≠ WorkerStep.stopped := by
  constructor
  · rfl
  · intro h
    exact WorkerStep.noConfusion h

/-- Claim C9 (confirmed): the Segment Store save is idempotent — writing
the same (index, bytes) pair twice into the same tempDir yields the same
path and the same resulting filesystem (hence byte-identical contents) as
writing it once. -/
theorem claimC9_idempotent (fsys : Fs) (tempDir : String) (index : Nat)
    (audio : Bytes) :
    saveSegment (saveSegment fsys tempDir index audio).1 tempDir index
        audio =
      saveSegment fsys tempDir index audio := by
  unfold saveSegment fsWrite
  refine Prod.ext ?_ rfl
  funext p
  by_cases hp : p = segmentFilename tempDir index <;> simp [hp]

/-- Claim C10 (confirmed): createSpeechRequest uses the default voice
"nova" and default gender "female" for a host missing from the host map,
and the request speed is the constant 1.0 for every message. -/
theorem claimC10_defaults (params : CreateSpeechRequestParams) :
    (params.hostMap params.msg.host = none →
      (createSpeechRequest params).gender = "female" ∧
        (createSpeechRequest params).voice = "nova") ∧
    (createSpeechRequest params).speed = 1 := by
  unfold createSpeechRequest
  cases h : params.hostMap params.msg.host <;> simp [h]

def paramsZoe : CreateSpeechRequestParams :=
  { msg := ⟨"Zoe", "hi"⟩, index := 0,
    hostMap := CreateHostMap hostsW, apiKey := "key" }

theorem claimC10_witness :
    paramsZoe.hostMap paramsZoe.msg.host = none ∧
    (createSpeechRequest paramsZoe).gender = "female" ∧
    (createSpeechRequest paramsZoe).voice = "nova" ∧
    (createSpeechRequest paramsZoe).speed = 1 := by
  have hz : paramsZoe.hostMap paramsZoe.msg.host = none := by decide
  have h := claimC10_defaults paramsZoe
  exact ⟨hz, (h.1 hz).1, (h.1 hz).2, h.2⟩

/-- Claim C4 (confirmed): if synthesis fails on line k (succeeding on the
other lines) and every delivery up to k is within the wait window, the
coordinator aborts with a SynthesisError carrying line index k and the
underlying error, produces no file list (Go returns nil on this path),
and the stop signal has been sent. -/
theorem claimC4_error_abort (env : PipelineEnv) (synth : Synthesizer)
    (waits : Nat → Nat) (k : Nat) (e : SynthError)
    (hk : k < env.messages.length)
    (hc : ∀ i < env.messages.length, i ≠ k → StepClean env synth waits i)
    (h30 : waits k < timeoutSeconds)
    (he : synthAt env synth k = .error e) :
    (generateAndPlayLocally env synth waits).result =
      .error (.synthesis k e) ∧
    (∀ files, (generateAndPlayLocally env synth waits).result ≠
      .ok files) ∧
    (generateAndPlayLocally env synth waits).stopSent = true := by
  rw [run_synth_fail env synth waits k hk
    (fun i hi => hc i (by omega) (by omega)) h30 e he]
  refine ⟨rfl, ?_, rfl⟩
  intro files h
  exact Except.noConfusion h

theorem claimC4_witness :
    (generateAndPlayLocally
      (envOf [⟨"Alice", "a0"⟩, ⟨"Alice", "a1"⟩, ⟨"Alice", "a2"⟩] false)
      (fun t _ => if t = "a1" then .error "boom" else .ok [7])
      waits0).result = .error (.synthesis 1 "boom") :=
  (claimC4_error_abort
    (envOf [⟨"Alice", "a0"⟩, ⟨"Alice", "a1"⟩, ⟨"Alice", "a2"⟩] false)
    (fun t _ => if t = "a1" then .error "boom" else .ok [7])
    waits0 1 "boom" (by decide) (by decide) (by decide) (by decide)).1

/-- Claim C5 (confirmed): each wait on the result channel is bounded by
timeoutSeconds = 30, re-armed per iteration: a wait of 30 seconds or more
at any iteration aborts the run with a TimeoutError and no file list,
while a run whose every wait stays under 30 succeeds no matter how long it
takes in total; and on every exit path — timeout included — the stop
signal has been sent by the time the coordinator returns. -/
theorem claimC5_timeout_per_wait (env : PipelineEnv) (synth : Synthesizer)
    (waits : Nat → Nat) :
    timeoutSeconds = 30 ∧
    (∀ k, k < env.messages.length →
      (∀ i < k, StepClean env synth waits i) →
      timeoutSeconds ≤ waits k →
      (generateAndPlayLocally env synth waits).result = .error .timeout ∧
      ∀ files,
        (generateAndPlayLocally env synth waits).result ≠ .ok files) ∧
    ((∀ i < env.messages.length, StepClean env synth waits i) →
      ∃ files,
        (generateAndPlayLocally env synth waits).result = .ok files) ∧
    (generateAndPlayLocally env synth waits).stopSent = true := by
  refine ⟨rfl, ?_, ?_, run_stopSent env synth waits⟩
  · intro k hk hc h30
    rw [run_timeout env synth waits k hk hc h30]
    refine ⟨rfl, ?_⟩
    intro files h
    exact Except.noConfusion h
  · intro hc
    rw [run_clean env synth waits hc]
    exact ⟨_, rfl⟩

theorem claimC5_witness :
    (generateAndPlayLocally (envOf [⟨"Alice", "a0"⟩] false) synthConst
      (fun _ => 30)).result = .error .timeout ∧
    (generateAndPlayLocally (envOf [⟨"Alice", "a0"⟩] false) synthConst
      (fun _ => 30)).stopSent = true := by
  have h := claimC5_timeout_per_wait (envOf [⟨"Alice", "a0"⟩] false)
    synthConst (fun _ => 30)
  exact ⟨(h.2.1 0 (by decide) (fun i hi => absurd hi (by omega))
    (by decide)).1, h.2.2.2⟩

/-- Claim C7 (corrected): an empty dialogue sequence does return an empty
file list and no error (and the stop signal is still sent), but the run
does not short-circuit before worker creation: generateAndPlayLocally
spawns its one speech worker goroutine unconditionally, before any length
check (main.go:274). -/
theorem claimC7_amended (env : PipelineEnv) (synth : Synthesizer)
    (waits : Nat → Nat) (h : env.messages = []) :
    (generateAndPlayLocally env synth waits).result = .ok [] ∧
    (generateAndPlayLocally env synth waits).trace = [] ∧
    (generateAndPlayLocally env synth waits).stopSent = true ∧
    (generateAndPlayLocally env synth waits).workersSpawned = 1 := by
  have hlen : env.messages.length = 0 := by rw [h]; rfl
  have hr := run_clean env synth waits
    (fun i hi => absurd hi (by omega))
  rw [hr]
  rw [hlen]
  refine ⟨rfl, ?_, rfl, rfl⟩
  show traceAt env 0 = []
  unfold traceAt
  rw [hlen]
  rfl

theorem claimC7_witness :
    (generateAndPlayLocally (envOf [] false) synthConst waits0).result =
      .ok [] ∧
    (generateAndPlayLocally (envOf [] false) synthConst
      waits0).workersSpawned = 1 := by
  have h := claimC7_amended (envOf [] false) synthConst waits0 rfl
  exact ⟨h.1, h.2.2.2⟩

theorem claimC7_counterexample :
    (generateAndPlayLocally (envOf [] false) synthConst waits0).result =
      .ok [] ∧
    (generateAndPlayLocally (envOf [] false) synthConst
      waits0).workersSpawned = 1 ∧
    (generateAndPlayLocally (envOf [] false) synthConst
      waits0).workersSpawned ≠ 0 := by
  refine ⟨rfl, rfl, ?_⟩
  intro h
  exact Nat.noConfusion h

lemma pairwise_pathLt_range_map (d : String) (n : Nat) (hn : n ≤ 1000) :
    List.Pairwise pathLt ((List.range n).map (segmentFilename d)) := by
  rw [List.pairwise_map]
  apply List.Pairwise.imp_of_mem ?_ (List.pairwise_lt_range n)
  intro a b ha hb hab
  have hb' : b < n := List.mem_range.mp hb
  exact segmentFilename_mono d a b hab (by omega)

/-- Claim C1 (corrected): with a synthesizer that succeeds on every line
(deliveries within the window), the pipeline returns exactly N file paths
with no error, in ascending index order, the path at position i being
tempDir/segment_(%03d i).mp3; but the lexical ordering of the paths
coincides with numeric index ordering only while every index fits the
3-digit zero padding, i.e. for N ≤ 1000 — from index 1000 on, %03d grows
to four digits and lexical order diverges. -/
theorem claimC1_amended (env : PipelineEnv) (synth : Synthesizer)
    (waits : Nat → Nat)
    (hc : ∀ i < env.messages.length, StepClean env synth waits i) :
    (generateAndPlayLocally env synth waits).result =
      .ok ((List.range env.messages.length).map
        (segmentFilename env.tempDir)) ∧
    ((List.range env.messages.length).map
      (segmentFilename env.tempDir)).length = env.messages.length ∧
    (∀ i, i < env.messages.length →
      ((List.range env.messages.length).map
        (segmentFilename env.tempDir)).get? i =
        some (env.tempDir ++ "/segment_" ++ zeroPad3 i ++ ".mp3")) ∧
    (env.messages.length ≤ 1000 →
      List.Pairwise pathLt ((List.range env.messages.length).map
        (segmentFilename env.tempDir))) := by
  refine ⟨?_, by simp, ?_, ?_⟩
  · rw [run_clean env synth waits hc]
  · intro i hi
    rw [List.get?_map, List.get?_range hi]
    rfl
  · intro hN
    exact pairwise_pathLt_range_map env.tempDir env.messages.length hN

theorem claimC1_witness :
    (∀ i < 1, StepClean (envOf [⟨"Alice", "a0"⟩] false) synthConst
      waits0 i) ∧
    (generateAndPlayLocally (envOf [⟨"Alice", "a0"⟩] false) synthConst
      waits0).result =
      .ok ((List.range 1).map (segmentFilename "/tmp/podcast")) := by
  have hc : ∀ i < (envOf [⟨"Alice", "a0"⟩] false).messages.length,
      StepClean (envOf [⟨"Alice", "a0"⟩] false) synthConst waits0 i := by
    intro i hi
    exact ⟨rfl, show (0 : Nat) < 30 from by omega,
      fun h => Bool.noConfusion h⟩
  exact ⟨hc, (claimC1_amended (envOf [⟨"Alice", "a0"⟩] false) synthConst
    waits0 hc).1⟩

def msgs1001 : List Message := (List.range 1001).map fun _ => ⟨"Alice", "line"⟩

set_option maxRecDepth 8000 in
theorem claimC1_counterexample :
    (generateAndPlayLocally (envOf msgs1001 false) synthConst
      waits0).result =
      .ok ((List.range 1001).map (segmentFilename "/tmp/podcast")) ∧
    ((List.range 1001).map (segmentFilename "/tmp/podcast")).get? 101 =
      some (segmentFilename "/tmp/podcast" 101) ∧
    ((List.range 1001).map (segmentFilename "/tmp/podcast")).get? 1000 =
      some (segmentFilename "/tmp/podcast" 1000) ∧
    pathLt (segmentFilename "/tmp/podcast" 1000)
      (segmentFilename "/tmp/podcast" 101) ∧
    ¬ pathLt (segmentFilename "/tmp/podcast" 101)
      (segmentFilename "/tmp/podcast" 1000) := by
  refine ⟨?_, ?_, ?_, by decide, by decide⟩
  · have hc : ∀ i < (envOf msgs1001 false).messages.length,
        StepClean (envOf msgs1001 false) synthConst waits0 i := by
      intro i hi
      exact ⟨rfl, show (0 : Nat) < 30 from by omega,
        fun h => Bool.noConfusion h⟩
    have hlen : (envOf msgs1001 false).messages.length = 1001 := by
      rw [show (envOf msgs1001 false).messages = msgs1001 from rfl]
      unfold msgs1001
      simp
    rw [run_clean (envOf msgs1001 false) synthConst waits0 hc]
    rw [hlen]
    rw [show (envOf msgs1001 false).tempDir = "/tmp/podcast" from rfl]
  · rw [List.get?_map, List.get?_range (by omega)]
    rfl
  · rw [List.get?_map, List.get?_range (by omega)]
    rfl

lemma takeIfNext_index :
    ∀ (buf : List SpeechSegment) (p : Nat) (s : SpeechSegment)
      (rest : List SpeechSegment),
      takeIfNext p buf = some (s, rest) → s.index = p := by
  intro buf
  induction buf with
  | nil => intro p s rest h; exact Option.noConfusion h
  | cons x xs ih =>
      intro p s rest h
      unfold takeIfNext at h
      by_cases hx : x.index = p
      · rw [if_pos hx] at h
        simp at h
        rw [← h.1]
        exact hx
      · rw [if_neg hx] at h
        cases hrec : takeIfNext p xs with
        | none => rw [hrec] at h; exact Option.noConfusion h
        | some pr =>
            obtain ⟨s', rest'⟩ := pr
            rw [hrec] at h
            simp at h
            rw [← h.1]
            exact ih p s' rest' hrec

/-- Claim C2 (corrected): the Ordered Segment Buffer releases a segment
only when its index equals the release cursor; the cursor starts at 0 and
each release writes exactly the cursor's file and advances it by one, so
file writes happen in strictly ascending index order; and in dry-run mode
the Player receives exactly the ascending-index file sequence whenever
results arrive in ascending index order — which the single-worker FIFO
pipeline always produces.  (For other arrival orders the run times out
instead; see the counterexample.) -/
theorem claimC2_amended :
    (∀ (buf : List SpeechSegment) (p : Nat) (s : SpeechSegment)
      (rest : List SpeechSegment),
      takeIfNext p buf = some (s, rest) → s.index = p) ∧
    (∀ env : PipelineEnv, (prefillState env).playedIndex = 0) ∧
    (∀ (env : PipelineEnv) (synth : Synthesizer) (waits : Nat → Nat),
      (∀ i < env.messages.length, StepClean env synth waits i) →
      writeLog (generateAndPlayLocally env synth waits).trace =
        (List.range env.messages.length).map
          (fun i => (i, segmentFilename env.tempDir i)) ∧
      (env.dryRun = true →
        playLog (generateAndPlayLocally env synth waits).trace =
          (List.range env.messages.length).map
            (segmentFilename env.tempDir))) := by
  refine ⟨takeIfNext_index, fun env => rfl, ?_⟩
  intro env synth waits hc
  rw [run_clean env synth waits hc]
  constructor
  · show writeLog (traceAt env env.messages.length) = _
    exact writeLog_traceAt env _
  · intro hdry
    show playLog (traceAt env env.messages.length) = _
    rw [playLog_traceAt env env.messages.length, if_pos hdry]

def envW2 : PipelineEnv := envOf [⟨"Alice", "x"⟩, ⟨"Bob", "y"⟩] true

theorem claimC2_witness :
    (∀ i < 2, StepClean envW2 synthConst waits0 i) ∧
    playLog (generateAndPlayLocally envW2 synthConst waits0).trace =
      (List.range 2).map (segmentFilename "/tmp/podcast") := by
  have hc : ∀ i < envW2.messages.length,
      StepClean envW2 synthConst waits0 i := by
    intro i hi
    exact ⟨rfl, show (0 : Nat) < 30 from by omega, fun _ => rfl⟩
  exact ⟨hc, (claimC2_amended.2.2 envW2 synthConst waits0 hc).2 rfl⟩

def segC2 (i : Nat) : SpeechSegment :=
  { audioData := [i], host := "Alice", index := i, error := none,
    msg := ⟨"Alice", "x"⟩ }

def arrC2 : List Arrival := [⟨0, segC2 1⟩, ⟨0, segC2 0⟩]

theorem claimC2_counterexample :
    (processSegmentsLoop envW2 arrC2 (prefillState envW2)).result =
      .error .timeout ∧
    playLog (processSegmentsLoop envW2 arrC2 (prefillState envW2)).trace =
      [segmentFilename "/tmp/podcast" 0] ∧
    playLog (processSegmentsLoop envW2 arrC2 (prefillState envW2)).trace ≠
      (List.range 2).map (segmentFilename "/tmp/podcast") := by
  refine ⟨by decide, by decide, by decide⟩

/-- Claim C3 (corrected): the coordinator issues the first
min(W, len(lines)) requests up front, but thereafter issues the next
request at the top of every loop iteration without checking the
outstanding count, so the number of outstanding (issued, not yet released)
requests reaches W + 1 = 3; it never exceeds W + 1 at any point of any
run. -/
theorem claimC3_amended (env : PipelineEnv) (synth : Synthesizer)
    (waits : Nat → Nat) :
    ((List.range (min bufferSize env.messages.length)).map Event.issue <+:
      (generateAndPlayLocally env synth waits).trace) ∧
    ∀ p, p <+: (generateAndPlayLocally env synth waits).trace →
      issuedCount p ≤ releasedCount p + (bufferSize + 1) := by
  obtain ⟨h1, h2⟩ := run_trace_bounds env synth waits
  refine ⟨h1, ?_⟩
  intro p hp
  exact outstanding_le_traceAt env env.messages.length p (hp.trans h2)

def envC3 : PipelineEnv :=
  envOf [⟨"Alice", "x"⟩, ⟨"Bob", "y"⟩, ⟨"Alice", "z"⟩] false

theorem claimC3_witness :
    ((List.range (min bufferSize 3)).map Event.issue <+:
      (generateAndPlayLocally envC3 synthConst waits0).trace) ∧
    issuedCount
        ((generateAndPlayLocally envC3 synthConst waits0).trace.take 2) ≤
      releasedCount
        ((generateAndPlayLocally envC3 synthConst waits0).trace.take 2) +
        (bufferSize + 1) :=
  ⟨(claimC3_amended envC3 synthConst waits0).1,
   (claimC3_amended envC3 synthConst waits0).2 _ (List.take_prefix 2 _)⟩

theorem claimC3_counterexample :
    (generateAndPlayLocally envC3 synthConst waits0).trace =
      traceAt envC3 3 ∧
    ([Event.issue 0, Event.issue 1, Event.issue 2] <+: traceAt envC3 3) ∧
    issuedCount [Event.issue 0, Event.issue 1, Event.issue 2] = 3 ∧
    releasedCount [Event.issue 0, Event.issue 1, Event.issue 2] = 0 := by
  have hc : ∀ i < envC3.messages.length,
      StepClean envC3 synthConst waits0 i := by
    intro i hi
    exact ⟨rfl, show (0 : Nat) < 30 from by omega,
      fun h => Bool.noConfusion h⟩
  refine ⟨?_, by decide, by decide, by decide⟩
  rw [run_clean envC3 synthConst waits0 hc]
  rfl

end AiPodcast









